import Mathlib

/-!
Shallow embedding of the Dr.SEM web application's pure logic:
the structural-model editor (nodes, links, interaction state machine),
the mermaid diagram-text generator, the link-layer renderer,
the APA table generator's CSV pipeline, and the tool-suggestion
heuristic.  Definitions are translated from the TypeScript source
(`ModelPreview`, `ApaTableGenerator`, `App.handleSendMessage`).
-/

/-- Node kind: `'latent' | 'observed'` (types.ts). -/
inductive NodeKind where
  | latent
  | observed
deriving DecidableEq, Repr

/-- Link kind: `'directed' | 'covariance'` (types.ts). -/
inductive LinkKind where
  | directed
  | covariance
deriving DecidableEq, Repr

/-- `Node` from types.ts.  Coordinates are modelled as integers; no claim
depends on fractional positions. -/
structure DNode where
  id : String
  label : String
  kind : NodeKind
  x : Int
  y : Int
deriving DecidableEq, Repr

/-- `Link` from types.ts. -/
structure DLink where
  source : String
  target : String
  kind : LinkKind
deriving DecidableEq, Repr

/-- Interaction mode of the canvas: `'move' | 'link'`. -/
inductive InteractionMode where
  | move
  | link
deriving DecidableEq, Repr

/-- The editor state held by `ModelPreview` (plus the node/link stores
lifted from `App`): `interactionMode`, `linkType`, `linkingSourceId`,
and the `nodes`/`links` lists.  `tempLineEnd` (a transient mouse
position used only for the rubber-band line) is omitted: no other
state reads it. -/
structure EditorState where
  nodes : List DNode
  links : List DLink
  interactionMode : InteractionMode
  linkKind : LinkKind
  linkingSourceId : Option String
deriving DecidableEq, Repr

/-- The `exists` duplicate test inside `handleNodeClick`:
`links.some(l => (l.source === src && l.target === tgt) ||
(linkType === 'covariance' && l.source === tgt && l.target === src))`. -/
def linkEquivExists (links : List DLink) (src tgt : String) (kind : LinkKind) : Bool :=
  links.any (fun l =>
    (l.source == src && l.target == tgt) ||
    (kind == LinkKind.covariance && l.source == tgt && l.target == src))

/-- `handleNodeClick` (ModelPreview).  In link mode: first click stores a
pending source; clicking the pending source again cancels; a click on a
different node appends the new link unless an equivalent one exists, and
clears the pending source either way.  Outside link mode it does nothing. -/
def handleNodeClick (id : String) (s : EditorState) : EditorState :=
  if s.interactionMode == InteractionMode.link then
    match s.linkingSourceId with
    | none => { s with linkingSourceId := some id }
    | some src =>
      if src == id then
        { s with linkingSourceId := none }
      else
        let s1 :=
          if linkEquivExists s.links src id s.linkKind then s
          else { s with links := s.links ++ [{ source := src, target := id, kind := s.linkKind }] }
        { s1 with linkingSourceId := none }
  else s

/-- `removeLastLink` (ModelPreview): `if (links.length > 0) setLinks(links.slice(0, -1))`. -/
def removeLastLink (links : List DLink) : List DLink :=
  if links.length > 0 then links.dropLast else links

/-- JavaScript `label.trim()` on a character list: strip leading and
trailing whitespace. -/
def isWsChar (c : Char) : Bool :=
  c == ' ' || c == '\t' || c == '\n' || c == '\r' || c == '\x0b' || c == '\x0c'

/-- Trim both ends of a character list. -/
def trimChars (l : List Char) : List Char :=
  ((l.dropWhile isWsChar).reverse.dropWhile isWsChar).reverse

/-- JavaScript `s.trim()`. -/
def jsTrim (s : String) : String := ⟨trimChars s.data⟩

/-- `addNode` (ModelPreview): rejects a blank label
(`if (!newNodeLabel.trim()) return`), otherwise appends the freshly
built node.  The node's generated id and random position arrive as
event data. -/
def addNodeOp (n : DNode) (s : EditorState) : EditorState :=
  if jsTrim n.label == "" then s
  else { s with nodes := s.nodes ++ [n] }

/-- The editor events: the two mode-toggle buttons (each clears the
pending source; `setMove` also clears the rubber-band line), the link
kind selector, a click on a node, the undo-last-link button, the
clear-all-links button carrying the `window.confirm` outcome, and the
add-node form. -/
inductive Event where
  | setMove
  | setLink
  | setLinkKind (k : LinkKind)
  | nodeClick (id : String)
  | undoLink
  | clearLinks (confirmed : Bool)
  | addNode (n : DNode)

/-- One editor transition per UI event, translated handler by handler. -/
def stepEv (s : EditorState) : Event → EditorState
  | Event.setMove => { s with interactionMode := InteractionMode.move, linkingSourceId := none }
  | Event.setLink => { s with interactionMode := InteractionMode.link, linkingSourceId := none }
  | Event.setLinkKind k => { s with linkKind := k }
  | Event.nodeClick id => handleNodeClick id s
  | Event.undoLink => { s with links := removeLastLink s.links }
  | Event.clearLinks confirmed => if confirmed then { s with links := [] } else s
  | Event.addNode n => addNodeOp n s

/-- Run a list of events in order. -/
def runEvents (s : EditorState) (es : List Event) : EditorState :=
  es.foldl stepEv s

/-- The editor's start state: `interactionMode` starts at `'move'`,
`linkType` at `'directed'`, `linkingSourceId` at `null`; the node and
link stores may hold anything restored from local storage. -/
def initState (nodes : List DNode) (links : List DLink) : EditorState :=
  { nodes := nodes, links := links,
    interactionMode := InteractionMode.move,
    linkKind := LinkKind.directed,
    linkingSourceId := none }

/-- States reachable from some start state by UI events. -/
inductive Reachable : EditorState → Prop where
  | init (nodes : List DNode) (links : List DLink) : Reachable (initState nodes links)
  | step (s : EditorState) (e : Event) : Reachable s → Reachable (stepEv s e)

/-- Count the links from `src` to `tgt` in a link list. -/
def countLink (links : List DLink) (src tgt : String) : Nat :=
  (links.filter (fun l => l.source == src && l.target == tgt)).length

/-! ## Mermaid diagram-text generator (ModelPreview, syntax-building effect) -/

/-- `label.replace(/\s/g, '_')`: every whitespace character becomes `'_'`,
scanning the characters left to right. -/
def replaceWsChars : List Char → List Char
  | [] => []
  | c :: cs => (if isWsChar c then '_' else c) :: replaceWsChars cs

/-- The sanitized node label. -/
def safeLabel (label : String) : String := ⟨replaceWsChars label.data⟩

/-- Name of the style class attached to a node declaration:
`:::${node.type}`. -/
def kindClassName : NodeKind → String
  | NodeKind.latent => "latent"
  | NodeKind.observed => "observed"

/-- The two `classDef` lines emitted right after the header, chosen by
the theme flag. -/
def classDefLines (isDarkMode : Bool) : String :=
  if isDarkMode then
    "classDef latent fill:#1e293b,stroke:#e2e8f0,stroke-width:2px,rx:50,ry:50,color:#fff;\n" ++
    "classDef observed fill:#0f172a,stroke:#06b6d4,stroke-width:1px,rx:0,ry:0,color:#fff;\n"
  else
    "classDef latent fill:#fff,stroke:#333,stroke-width:2px,rx:50,ry:50;\n" ++
    "classDef observed fill:#f0f9ff,stroke:#0891b2,stroke-width:1px,rx:0,ry:0;\n"

/-- One node declaration line:
`${node.id}${shape}:::${node.type}\n` with the rounded `((...))` shape
for latent nodes and the `[...]` shape for observed nodes. -/
def nodeDeclLine (node : DNode) : String :=
  let shape :=
    if node.kind == NodeKind.latent then "((" ++ safeLabel node.label ++ "))"
    else "[" ++ safeLabel node.label ++ "]"
  node.id ++ shape ++ ":::" ++ kindClassName node.kind ++ "\n"

/-- One link declaration line: `${link.source} ${arrow} ${link.target}\n`
with `<-->` for covariance links and `-->` otherwise. -/
def linkDeclLine (link : DLink) : String :=
  let arrow := if link.kind == LinkKind.covariance then "<-->" else "-->"
  link.source ++ " " ++ arrow ++ " " ++ link.target ++ "\n"

/-- The mermaid-text builder (the `useEffect` on `[nodes, links, isDarkMode]`):
starts from `'graph LR\n'`, appends the theme's `classDef` lines, then one
line per node and one line per link, by repeated `syntax +=`. -/
def generateMermaid (nodes : List DNode) (links : List DLink) (isDarkMode : Bool) : String :=
  let s0 := "graph LR\n"
  let s1 := s0 ++ classDefLines isDarkMode
  let s2 := nodes.foldl (fun acc node => acc ++ nodeDeclLine node) s1
  links.foldl (fun acc link => acc ++ linkDeclLine link) s2

/-! ## Link-layer renderer (ModelPreview, `links.map` inside the svg) -/

/-- `nodes.find(n => n.id === someId)`. -/
def findNode (nodes : List DNode) (id : String) : Option DNode :=
  nodes.find? (fun n => n.id == id)

/-- The geometric data of one rendered `<line>` element. -/
structure LineElem where
  x1 : Int
  y1 : Int
  x2 : Int
  y2 : Int
  dashed : Bool
deriving DecidableEq, Repr

/-- Anchor x-offset of a node: `+ (type === 'latent' ? 50 : 60)`. -/
def anchorOffset (k : NodeKind) : Int :=
  if k == NodeKind.latent then 50 else 60

/-- Rendering one link: look up both endpoints, return `null` (here
`none`) when either is missing, otherwise the `<line>` with the
endpoint anchors and covariance dashing. -/
def renderLink (nodes : List DNode) (link : DLink) : Option LineElem :=
  match findNode nodes link.source, findNode nodes link.target with
  | some s, some t =>
      some { x1 := s.x + anchorOffset s.kind, y1 := s.y + 25,
             x2 := t.x + anchorOffset t.kind, y2 := t.y + 25,
             dashed := link.kind == LinkKind.covariance }
  | _, _ => none

/-- The link layer: the per-link results in order, `null` entries kept
(React drops them when rendering). -/
def renderLinkLayer (nodes : List DNode) (links : List DLink) : List (Option LineElem) :=
  links.map (renderLink nodes)

/-- The lines actually drawn: the non-`null` entries in order. -/
def drawnLinks (nodes : List DNode) (links : List DLink) : List LineElem :=
  (renderLinkLayer nodes links).reduceOption

/-! ## APA table generator (ApaTableGenerator): CSV parsing, column
hiding, preview cells and Markdown export -/

/-- JavaScript single-character `split`: `''.split(sep)` is `['']`, the
separator itself never appears in the pieces. -/
def splitOnChar (sep : Char) : List Char → List (List Char)
  | [] => [[]]
  | c :: cs =>
    let r := splitOnChar sep cs
    if c == sep then [] :: r
    else
      match r with
      | [] => [[c]]
      | piece :: rest => (c :: piece) :: rest

/-- `dataText.trim().split('\n').map(r => r.split(',').map(c => c.trim()))`. -/
def parseRows (dataText : String) : List (List String) :=
  (splitOnChar '\n' (jsTrim dataText).data).map
    (fun r => (splitOnChar ',' r).map (fun cell => (⟨trimChars cell⟩ : String)))

/-- `rows[0] || []`. -/
def allHeaders (rows : List (List String)) : List String := rows.headD []

/-- `rows.slice(1)`. -/
def allBody (rows : List (List String)) : List (List String) := rows.tail

/-- `allHeaders.map((h, i) => hiddenColumns.includes(h) ? -1 : i).filter(i => i !== -1)`. -/
def visibleIndices (headers hidden : List String) : List Int :=
  (headers.enum.map (fun p => if hidden.contains p.2 then (-1 : Int) else (p.1 : Int))).filter
    (fun i => i != -1)

/-- JavaScript `arr.filter((_, i) => idxs.includes(i))`. -/
def filterByIdx {α : Type} (l : List α) (idxs : List Int) : List α :=
  (l.enum.filter (fun p => idxs.contains (p.1 : Int))).map Prod.snd

/-- `getVisibleData`: the visible header cells and, row by row, the body
cells whose column index survives the hidden-column filter. -/
def getVisibleData (dataText : String) (hidden : List String) : List String × List (List String) :=
  let rows := parseRows dataText
  let headers := allHeaders rows
  let body := allBody rows
  let idxs := visibleIndices headers hidden
  (filterByIdx headers idxs, body.map (fun row => filterByIdx row idxs))

/-- Boolean list-prefix test on characters. -/
def isPrefixOfB : List Char → List Char → Bool
  | [], _ => true
  | _ :: _, [] => false
  | a :: as, b :: bs => a == b && isPrefixOfB as bs

/-- Replace the first occurrence of `pat` (scanning left to right) by
`repl` in a character list; no occurrence leaves the list unchanged. -/
def replaceFirstChars (pat repl : List Char) : List Char → List Char
  | [] => if isPrefixOfB pat [] then repl else []
  | c :: cs =>
    if isPrefixOfB pat (c :: cs) then repl ++ (c :: cs).drop pat.length
    else c :: replaceFirstChars pat repl cs

/-- JavaScript `title.replace('\n', repl)` with a plain-string pattern:
only the first occurrence is replaced. -/
def replaceFirst (s pat repl : String) : String :=
  ⟨replaceFirstChars pat.data repl.data s.data⟩

/-- `handleCopyMarkdown`: title block, header row, `---` separator row,
one `| a | b |` line per body row (built by `body.forEach` appends), and
the italic note. -/
def markdownTableText (title note : String) (header : List String)
    (body : List (List String)) : String :=
  let md0 := "**" ++ replaceFirst title "\n" "**  \n*" ++ "*\n\n"
  let md1 := md0 ++ "| " ++ String.intercalate " | " header ++ " |\n"
  let md2 := md1 ++ "| " ++ String.intercalate " | " (header.map (fun _ => "---")) ++ " |\n"
  let md3 := body.foldl (fun acc row => acc ++ ("| " ++ String.intercalate " | " row ++ " |\n")) md2
  md3 ++ "\n*" ++ note ++ "*"

/-- The `<tbody>` of the preview: `body.map(row => row.map(cell => <td>cell</td>))`
— one `<td>` per field actually present in the row, nothing added. -/
def tbodyCellMatrix (body : List (List String)) : List (List String) :=
  body.map (fun row => row.map (fun cell => cell))

/-! ## Tool-suggestion heuristic (App.handleSendMessage) -/

/-- The tool panels (`ToolMode` in types.ts). -/
inductive ToolMode where
  | conceptual
  | fit_checker
  | apa_table
  | jamovi
deriving DecidableEq, Repr

/-- Boolean substring occurrence test on characters. -/
def isInfixB (pat : List Char) : List Char → Bool
  | [] => isPrefixOfB pat []
  | c :: rest => isPrefixOfB pat (c :: rest) || isInfixB pat rest

/-- JavaScript `s.includes(kw)`. -/
def strIncludes (s kw : String) : Bool := isInfixB kw.data s.data

/-- JavaScript `s.toLowerCase()` (ASCII letters; the Thai keyword has no
case). -/
def toLowerStr (s : String) : String := ⟨s.data.map Char.toLower⟩

/-- The keyword scan of `handleSendMessage`: lowercase the reply, then an
`if/else if` chain — fit-index terms, APA/table terms, software/code
terms — setting the suggested tool to the first group that matches;
otherwise the suggestion stays absent. -/
def suggestTool (answer : String) : Option ToolMode :=
  let lowerText := toLowerStr answer
  if strIncludes lowerText "cfi" || strIncludes lowerText "rmsea" ||
     strIncludes lowerText "fit index" then
    some ToolMode.fit_checker
  else if strIncludes lowerText "apa table" || strIncludes lowerText "ตาราง" then
    some ToolMode.apa_table
  else if strIncludes lowerText "jamovi" || strIncludes lowerText "syntax" ||
          strIncludes lowerText "code" then
    some ToolMode.jamovi
  else
    none

/-- The three fixed keyword sets, in priority order, paired with the
panel each suggests — the spec's description of the heuristic. -/
def keywordGroups : List (List String × ToolMode) :=
  [(["cfi", "rmsea", "fit index"], ToolMode.fit_checker),
   (["apa table", "ตาราง"], ToolMode.apa_table),
   (["jamovi", "syntax", "code"], ToolMode.jamovi)]

/-- First keyword group (in the given order) with a keyword occurring in
`t`; its panel is the suggestion. -/
def firstMatchGroup (t : String) : List (List String × ToolMode) → Option ToolMode
  | [] => none
  | g :: gs => if g.1.any (fun kw => strIncludes t kw) then some g.2 else firstMatchGroup t gs

/-- Spec-shaped heuristic: scan the lowercased reply against the keyword
groups in priority order; the first group with a matching keyword wins;
no match, no suggestion. -/
def prioritySuggest (answer : String) : Option ToolMode :=
  firstMatchGroup (toLowerStr answer) keywordGroups



/-! ## Helper lemmas -/

/-- A `handleNodeClick` call never changes the interaction mode. -/
theorem handleNodeClick_mode (id : String) (s : EditorState) :
    (handleNodeClick id s).interactionMode = s.interactionMode := by
  unfold handleNodeClick
  split
  · split
    · rfl
    · split
      · rfl
      · simp only
        split <;> rfl
  · rfl

/-- A `handleNodeClick` call never changes the node list. -/
theorem handleNodeClick_nodes (id : String) (s : EditorState) :
    (handleNodeClick id s).nodes = s.nodes := by
  unfold handleNodeClick
  split
  · split
    · rfl
    · split
      · rfl
      · simp only
        split <;> rfl
  · rfl

/-- A `handleNodeClick` call never changes the selected link kind. -/
theorem handleNodeClick_kind (id : String) (s : EditorState) :
    (handleNodeClick id s).linkKind = s.linkKind := by
  unfold handleNodeClick
  split
  · split
    · rfl
    · split
      · rfl
      · simp only
        split <;> rfl
  · rfl

/-- Outside link mode, clicking a node does nothing. -/
theorem handleNodeClick_move (id : String) (s : EditorState)
    (hm : s.interactionMode ≠ InteractionMode.link) :
    handleNodeClick id s = s := by
  unfold handleNodeClick
  simp [hm]

/-- In link mode with no pending source, a click stores the clicked id
as the pending source. -/
theorem handleNodeClick_first (id : String) (s : EditorState)
    (hm : s.interactionMode = InteractionMode.link)
    (hp : s.linkingSourceId = none) :
    handleNodeClick id s = { s with linkingSourceId := some id } := by
  unfold handleNodeClick
  rw [hp]
  simp [hm]

/-- In link mode, a second click on a node different from the pending
source either appends the new link (no equivalent present) or leaves the
links alone (equivalent present); the pending source is cleared either
way. -/
theorem handleNodeClick_second (id src : String) (s : EditorState)
    (hm : s.interactionMode = InteractionMode.link)
    (hp : s.linkingSourceId = some src) (hne : src ≠ id) :
    handleNodeClick id s =
      if linkEquivExists s.links src id s.linkKind then
        { s with linkingSourceId := none }
      else
        { s with links := s.links ++ [{ source := src, target := id, kind := s.linkKind }],
                 linkingSourceId := none } := by
  unfold handleNodeClick
  rw [hp]
  simp only [hm, beq_self_eq_true, if_true, beq_iff_eq, hne, if_false]
  split <;> simp [hm]

/-- Repeated `acc ++ f x` appends (the `+=` loop) produce the initial
string followed by the joined per-item strings. -/
theorem foldl_append_eq_join {α : Type} (f : α → String) :
    ∀ (l : List α) (init : String),
      l.foldl (fun acc x => acc ++ f x) init = init ++ String.join (l.map f)
  | [], init => by
      apply String.ext
      simp [String.join_eq]
  | x :: xs, init => by
      rw [List.foldl_cons, foldl_append_eq_join f xs (init ++ f x)]
      apply String.ext
      simp [String.join_eq, String.data_append]

/-! ## Claims -/

/-- C2: the mermaid generator is a deterministic pure function of the
ordered node list, the ordered link list and the theme flag — equal
inputs give byte-identical output text. -/
theorem c2_mermaid_deterministic (n₁ n₂ : List DNode) (l₁ l₂ : List DLink) (t₁ t₂ : Bool)
    (hn : n₁ = n₂) (hl : l₁ = l₂) (ht : t₁ = t₂) :
    generateMermaid n₁ l₁ t₁ = generateMermaid n₂ l₂ t₂ := by
  subst hn; subst hl; subst ht; rfl

/-- Witness for C2 at a concrete graph. -/
theorem c2_mermaid_deterministic_witness :
    generateMermaid [{ id := "n1", label := "A", kind := NodeKind.latent, x := 0, y := 0 }]
        [{ source := "n1", target := "n1", kind := LinkKind.directed }] true =
      generateMermaid [{ id := "n1", label := "A", kind := NodeKind.latent, x := 0, y := 0 }]
        [{ source := "n1", target := "n1", kind := LinkKind.directed }] true :=
  c2_mermaid_deterministic _ _ _ _ _ _ rfl rfl rfl

/-- C3: the generated diagram text is the header, the theme's style
definitions, one declaration per node in node-list order, then one
declaration per link in link-list order; a node declaration is the id,
the label with every whitespace character replaced by `'_'` inside a
rounded `((...))` marker for latent and a rectangular `[...]` marker for
observed nodes, and the kind's style class; a link declaration uses
`-->` for directed and `<-->` for covariance links. -/
theorem c3_mermaid_structure (nodes : List DNode) (links : List DLink) (isDarkMode : Bool) :
    generateMermaid nodes links isDarkMode =
      "graph LR\n" ++ classDefLines isDarkMode ++
        String.join (nodes.map nodeDeclLine) ++ String.join (links.map linkDeclLine) ∧
    (∀ node : DNode, nodeDeclLine node =
        node.id ++
          (match node.kind with
           | NodeKind.latent => "((" ++ safeLabel node.label ++ "))"
           | NodeKind.observed => "[" ++ safeLabel node.label ++ "]") ++
          ":::" ++ kindClassName node.kind ++ "\n") ∧
    (∀ label : String, (safeLabel label).data =
        label.data.map (fun c => if isWsChar c then '_' else c)) ∧
    (∀ link : DLink, linkDeclLine link =
        link.source ++ " " ++
          (match link.kind with
           | LinkKind.directed => "-->"
           | LinkKind.covariance => "<-->") ++ " " ++ link.target ++ "\n") := by
  refine ⟨?_, ?_, ?_, ?_⟩
  · unfold generateMermaid
    rw [foldl_append_eq_join, foldl_append_eq_join]
  · intro node
    cases hk : node.kind <;> simp [nodeDeclLine, hk]
  · intro label
    show replaceWsChars label.data = _
    induction label.data with
    | nil => rfl
    | cons c cs ih => simp [replaceWsChars, ih]
  · intro link
    cases hk : link.kind <;> simp [linkDeclLine, hk]

/-- C4: undoing the last link removes exactly the most recently appended
link and keeps the earlier links in order; on an empty link list it is a
no-op that leaves the whole state unchanged. -/
theorem c4_undo_last_link :
    (∀ (s : EditorState) (ls : List DLink) (l : DLink),
        s.links = ls ++ [l] → stepEv s Event.undoLink = { s with links := ls }) ∧
    (∀ s : EditorState, s.links = [] → stepEv s Event.undoLink = s) := by
  constructor
  · intro s ls l h
    simp [stepEv, removeLastLink, h]
  · intro s h
    show { s with links := removeLastLink s.links } = s
    have hr : removeLastLink s.links = s.links := by simp [removeLastLink, h]
    rw [hr]

/-- Witness for C4: one pop from a one-link list and one no-op on an
empty list. -/
theorem c4_undo_last_link_witness :
    stepEv (initState [] [{ source := "a", target := "b", kind := LinkKind.directed }])
        Event.undoLink =
      { initState [] [{ source := "a", target := "b", kind := LinkKind.directed }] with
          links := [] } ∧
    stepEv (initState [] []) Event.undoLink = initState [] [] :=
  ⟨c4_undo_last_link.1 _ [] _ rfl, c4_undo_last_link.2 _ rfl⟩

/-- C6: with confirmation the clear-all-links operation empties the link
list and changes nothing else; without confirmation the whole editor
state is exactly unchanged. -/
theorem c6_clear_all_links (s : EditorState) :
    stepEv s (Event.clearLinks true) = { s with links := [] } ∧
    stepEv s (Event.clearLinks false) = s :=
  ⟨rfl, rfl⟩

/-- C10: the link-store operations (node clicks driving link creation,
undo-last-link, clear-all-links) never change the node list, and adding
a node never changes the link list. -/
theorem c10_frame (s : EditorState) (id : String) (c : Bool) (n : DNode) :
    (stepEv s (Event.nodeClick id)).nodes = s.nodes ∧
    (stepEv s Event.undoLink).nodes = s.nodes ∧
    (stepEv s (Event.clearLinks c)).nodes = s.nodes ∧
    (stepEv s (Event.addNode n)).links = s.links := by
  refine ⟨handleNodeClick_nodes id s, rfl, ?_, ?_⟩
  · cases c <;> rfl
  · show (addNodeOp n s).links = s.links
    unfold addNodeOp
    split <;> rfl

/-- A link is rendered as `null` exactly when one of its endpoints is
missing from the node list. -/
theorem renderLink_eq_none_iff (nodes : List DNode) (link : DLink) :
    renderLink nodes link = none ↔
      findNode nodes link.source = none ∨ findNode nodes link.target = none := by
  unfold renderLink
  cases hs : findNode nodes link.source <;> cases ht : findNode nodes link.target <;> simp

/-- C5: the link layer tolerates dangling references — a link whose
source or target id finds no node is skipped (rendered as `null`), a
link with both endpoints present is drawn as the connecting line, and
the drawn lines are exactly one per fully-resolved link. -/
theorem c5_render_tolerates_dangling (nodes : List DNode) (links : List DLink) :
    (∀ link : DLink, renderLink nodes link = none ↔
        findNode nodes link.source = none ∨ findNode nodes link.target = none) ∧
    (∀ (link : DLink) (s t : DNode),
        findNode nodes link.source = some s → findNode nodes link.target = some t →
        renderLink nodes link =
          some { x1 := s.x + anchorOffset s.kind, y1 := s.y + 25,
                 x2 := t.x + anchorOffset t.kind, y2 := t.y + 25,
                 dashed := link.kind == LinkKind.covariance }) ∧
    (drawnLinks nodes links).length =
      (links.filter (fun l =>
          (findNode nodes l.source).isSome && (findNode nodes l.target).isSome)).length := by
  refine ⟨renderLink_eq_none_iff nodes, ?_, ?_⟩
  · intro link s t hs ht
    unfold renderLink
    rw [hs, ht]
  · induction links with
    | nil => rfl
    | cons l ls ih =>
      show ((renderLink nodes l :: ls.map (renderLink nodes)).reduceOption).length = _
      cases hs : findNode nodes l.source <;> cases ht : findNode nodes l.target <;>
        simp only [List.filter_cons, hs, ht, Option.isSome_some, Option.isSome_none,
          Bool.and_true, Bool.and_false, Bool.true_and, Bool.false_and] <;>
        first
          | (rw [show renderLink nodes l = none by rw [renderLink_eq_none_iff]; simp [hs, ht]]
             simpa using ih)
          | (rw [show renderLink nodes l =
                  some { x1 := _ + anchorOffset _, y1 := _ + 25,
                         x2 := _ + anchorOffset _, y2 := _ + 25,
                         dashed := l.kind == LinkKind.covariance } from by
                    unfold renderLink; rw [hs, ht]]
             simp [List.reduceOption_cons_of_some]
             simpa using ih)

/-- Witness for C5: one resolvable link is rendered with the anchor
geometry of its two endpoint nodes. -/
theorem c5_render_tolerates_dangling_witness :
    renderLink [{ id := "a", label := "A", kind := NodeKind.latent, x := 1, y := 2 }]
        { source := "a", target := "a", kind := LinkKind.directed } =
      some { x1 := 51, y1 := 27, x2 := 51, y2 := 27, dashed := false } := by
  have h := (c5_render_tolerates_dangling
      [{ id := "a", label := "A", kind := NodeKind.latent, x := 1, y := 2 }] []).2.1
      { source := "a", target := "a", kind := LinkKind.directed }
      { id := "a", label := "A", kind := NodeKind.latent, x := 1, y := 2 }
      { id := "a", label := "A", kind := NodeKind.latent, x := 1, y := 2 }
      rfl rfl
  simpa using h

/-- C8: the tool-suggestion heuristic equals the prioritized
keyword-group scan — lowercase the reply, check the fit-index group,
then the APA/table group, then the software group, suggest the panel of
the first group containing a matching keyword — and when no keyword of
any group occurs, no suggestion is produced. -/
theorem c8_suggestion_heuristic (answer : String) :
    suggestTool answer = prioritySuggest answer ∧
    (keywordGroups.all
        (fun g => g.1.all (fun kw => !strIncludes (toLowerStr answer) kw)) = true →
      suggestTool answer = none) := by
  constructor
  · unfold suggestTool prioritySuggest keywordGroups
    simp only [firstMatchGroup, List.any_cons, List.any_nil, Bool.or_false, Bool.or_eq_true,
      or_assoc]
  · intro hall
    simp only [keywordGroups, List.all_cons, List.all_nil, Bool.and_true,
      Bool.and_eq_true, Bool.not_eq_true'] at hall
    obtain ⟨⟨hcfi, hrmsea, hfit⟩, ⟨hapa, hth⟩, ⟨hjam, hsyn, hcode⟩⟩ := hall
    unfold suggestTool
    simp [hcfi, hrmsea, hfit, hapa, hth, hjam, hsyn, hcode]

/-- Witness for C8: a reply without any keyword produces no suggestion. -/
theorem c8_suggestion_heuristic_witness : suggestTool "Hello there" = none :=
  (c8_suggestion_heuristic "Hello there").2 (by decide)

/-- Adding a node changes neither the interaction mode nor the pending
source. -/
theorem addNodeOp_mode_pending (n : DNode) (s : EditorState) :
    (addNodeOp n s).interactionMode = s.interactionMode ∧
    (addNodeOp n s).linkingSourceId = s.linkingSourceId := by
  unfold addNodeOp
  constructor <;> (split <;> rfl)

/-- C9: in every reachable editor state, a non-null pending link source
implies the interaction mode is `link`: both mode buttons clear the
pending source, and no operation available in move mode sets it. -/
theorem c9_pending_implies_link_mode (s : EditorState) (hr : Reachable s)
    (hp : s.linkingSourceId ≠ none) :
    s.interactionMode = InteractionMode.link := by
  induction hr with
  | init nodes links => exact absurd rfl hp
  | step t e hR ih =>
    cases e with
    | setMove => exact absurd rfl hp
    | setLink => rfl
    | setLinkKind k => exact ih hp
    | nodeClick id =>
      simp only [stepEv] at hp ⊢
      by_cases hm : t.interactionMode = InteractionMode.link
      · rw [handleNodeClick_mode]
        exact hm
      · rw [handleNodeClick_move id t hm] at hp ⊢
        exact ih hp
    | undoLink => exact ih hp
    | clearLinks c => cases c <;> exact ih hp
    | addNode n =>
      simp only [stepEv] at hp ⊢
      rw [(addNodeOp_mode_pending n t).2] at hp
      rw [(addNodeOp_mode_pending n t).1]
      exact ih hp

/-- Witness for C9: from a start state, switch to link mode and click a
node; the state is reachable, has a pending source, and is in link mode. -/
theorem c9_pending_implies_link_mode_witness :
    (stepEv (stepEv (initState [] []) Event.setLink) (Event.nodeClick "a")).interactionMode =
      InteractionMode.link :=
  c9_pending_implies_link_mode _
    (Reachable.step _ _ (Reachable.step _ _ (Reachable.init [] [])))
    (by decide)

/-- `countLink` distributes over append. -/
theorem countLink_append (l₁ l₂ : List DLink) (src tgt : String) :
    countLink (l₁ ++ l₂) src tgt = countLink l₁ src tgt + countLink l₂ src tgt := by
  simp [countLink, List.filter_append]

/-- When no link from `src` to `tgt` is stored, the duplicate test for a
directed creation finds nothing. -/
theorem linkEquivExists_directed_of_count_zero (links : List DLink) (src tgt : String)
    (hc : countLink links src tgt = 0) :
    linkEquivExists links src tgt LinkKind.directed = false := by
  have h0 : links.filter (fun l => l.source == src && l.target == tgt) = [] :=
    List.length_eq_zero.mp hc
  rw [Bool.eq_false_iff]
  intro hcon
  unfold linkEquivExists at hcon
  rw [List.any_eq_true] at hcon
  obtain ⟨l, hl, hpred⟩ := hcon
  have hdk : (LinkKind.directed == LinkKind.covariance) = false := by decide
  rw [hdk, Bool.false_and, Bool.false_and, Bool.or_false] at hpred
  have hmem : l ∈ links.filter (fun l => l.source == src && l.target == tgt) :=
    List.mem_filter.mpr ⟨hl, hpred⟩
  rw [h0] at hmem
  exact absurd hmem (List.not_mem_nil l)

/-- C1: (i) in link mode, a second click on a node other than the
pending source appends `{source: pending, target: clicked, kind:
current kind}` to the end of the link list unless an equivalent link
exists (same source/target pair; for a covariance creation also the
reversed pair), in which case the list is unchanged, and the pending
source is cleared either way; (ii) creating a directed link A→B twice
leaves exactly one A→B link in the store; (iii) creating a covariance
link A→B and then attempting B→A adds exactly the single link A→B. -/
theorem c1_link_creation :
    (∀ (s : EditorState) (src id : String),
        s.interactionMode = InteractionMode.link → s.linkingSourceId = some src → src ≠ id →
        (stepEv s (Event.nodeClick id)).links =
          (if linkEquivExists s.links src id s.linkKind then s.links
           else s.links ++ [{ source := src, target := id, kind := s.linkKind }]) ∧
        (stepEv s (Event.nodeClick id)).linkingSourceId = none) ∧
    (∀ (s : EditorState) (A B : String),
        s.interactionMode = InteractionMode.link → s.linkKind = LinkKind.directed →
        s.linkingSourceId = none → A ≠ B → countLink s.links A B = 0 →
        countLink (runEvents s [Event.nodeClick A, Event.nodeClick B,
            Event.nodeClick A, Event.nodeClick B]).links A B = 1) ∧
    (∀ (s : EditorState) (A B : String),
        s.interactionMode = InteractionMode.link → s.linkKind = LinkKind.covariance →
        s.linkingSourceId = none → A ≠ B →
        linkEquivExists s.links A B LinkKind.covariance = false →
        (runEvents s [Event.nodeClick A, Event.nodeClick B,
            Event.nodeClick B, Event.nodeClick A]).links =
          s.links ++ [{ source := A, target := B, kind := LinkKind.covariance }]) := by
  refine ⟨?_, ?_, ?_⟩
  · intro s src id hm hp hne
    show (handleNodeClick id s).links = _ ∧ (handleNodeClick id s).linkingSourceId = none
    rw [handleNodeClick_second id src s hm hp hne]
    constructor
    · split <;> rfl
    · split <;> rfl
  · intro s A B hm hk hp hne hc
    have hx : linkEquivExists s.links A B s.linkKind = false := by
      rw [hk]
      exact linkEquivExists_directed_of_count_zero s.links A B hc
    have hxne : ¬ (linkEquivExists s.links A B s.linkKind = true) := by
      rw [hx]; exact Bool.false_ne_true
    have e1 : stepEv s (Event.nodeClick A) = { s with linkingSourceId := some A } :=
      handleNodeClick_first A s hm hp
    have e2 : stepEv { s with linkingSourceId := some A } (Event.nodeClick B) =
        { s with links := s.links ++ [{ source := A, target := B, kind := s.linkKind }],
                 linkingSourceId := none } := by
      show handleNodeClick B { s with linkingSourceId := some A } = _
      rw [handleNodeClick_second B A { s with linkingSourceId := some A } hm rfl hne]
      dsimp only
      rw [if_neg hxne]
    have e3 : stepEv { s with links := s.links ++
          [{ source := A, target := B, kind := s.linkKind }], linkingSourceId := none }
          (Event.nodeClick A) =
        { s with links := s.links ++ [{ source := A, target := B, kind := s.linkKind }],
                 linkingSourceId := some A } :=
      handleNodeClick_first A _ hm rfl
    have hx2 : linkEquivExists (s.links ++ [{ source := A, target := B, kind := s.linkKind }])
        A B s.linkKind = true := by
      simp [linkEquivExists, List.any_append]
    have e4 : stepEv { s with links := s.links ++
          [{ source := A, target := B, kind := s.linkKind }], linkingSourceId := some A }
          (Event.nodeClick B) =
        { s with links := s.links ++ [{ source := A, target := B, kind := s.linkKind }],
                 linkingSourceId := none } := by
      show handleNodeClick B { s with links := s.links ++
          [{ source := A, target := B, kind := s.linkKind }], linkingSourceId := some A } = _
      rw [handleNodeClick_second B A { s with links := s.links ++
          [{ source := A, target := B, kind := s.linkKind }], linkingSourceId := some A }
        hm rfl hne]
      dsimp only
      rw [if_pos hx2]
    show countLink (stepEv (stepEv (stepEv (stepEv s (Event.nodeClick A)) (Event.nodeClick B))
        (Event.nodeClick A)) (Event.nodeClick B)).links A B = 1
    rw [e1, e2, e3, e4]
    show countLink (s.links ++ [{ source := A, target := B, kind := s.linkKind }]) A B = 1
    rw [countLink_append, hc]
    simp [countLink]
  · intro s A B hm hk hp hne hx
    have hxne : ¬ (linkEquivExists s.links A B s.linkKind = true) := by
      rw [hk, hx]; exact Bool.false_ne_true
    have e1 : stepEv s (Event.nodeClick A) = { s with linkingSourceId := some A } :=
      handleNodeClick_first A s hm hp
    have e2 : stepEv { s with linkingSourceId := some A } (Event.nodeClick B) =
        { s with links := s.links ++ [{ source := A, target := B, kind := s.linkKind }],
                 linkingSourceId := none } := by
      show handleNodeClick B { s with linkingSourceId := some A } = _
      rw [handleNodeClick_second B A { s with linkingSourceId := some A } hm rfl hne]
      dsimp only
      rw [if_neg hxne]
    have e3 : stepEv { s with links := s.links ++
          [{ source := A, target := B, kind := s.linkKind }], linkingSourceId := none }
          (Event.nodeClick B) =
        { s with links := s.links ++ [{ source := A, target := B, kind := s.linkKind }],
                 linkingSourceId := some B } :=
      handleNodeClick_first B _ hm rfl
    have hx2 : linkEquivExists (s.links ++ [{ source := A, target := B, kind := s.linkKind }])
        B A s.linkKind = true := by
      simp [linkEquivExists, List.any_append, hk]
    have e4 : stepEv { s with links := s.links ++
          [{ source := A, target := B, kind := s.linkKind }], linkingSourceId := some B }
          (Event.nodeClick A) =
        { s with links := s.links ++ [{ source := A, target := B, kind := s.linkKind }],
                 linkingSourceId := none } := by
      show handleNodeClick A { s with links := s.links ++
          [{ source := A, target := B, kind := s.linkKind }], linkingSourceId := some B } = _
      rw [handleNodeClick_second A B { s with links := s.links ++
          [{ source := A, target := B, kind := s.linkKind }], linkingSourceId := some B }
        hm rfl (Ne.symm hne)]
      dsimp only
      rw [if_pos hx2]
    show (stepEv (stepEv (stepEv (stepEv s (Event.nodeClick A)) (Event.nodeClick B))
        (Event.nodeClick B)) (Event.nodeClick A)).links =
      s.links ++ [{ source := A, target := B, kind := LinkKind.covariance }]
    rw [e1, e2, e3, e4]
    show s.links ++ [{ source := A, target := B, kind := s.linkKind }] =
      s.links ++ [{ source := A, target := B, kind := LinkKind.covariance }]
    rw [hk]

/-- Witness for C1: from a link-mode state with pending source `"a"`,
clicking `"b"` appends the directed link a→b and clears the pending
source. -/
theorem c1_link_creation_witness :
    (stepEv ⟨[], [], InteractionMode.link, LinkKind.directed, some "a"⟩
        (Event.nodeClick "b")).links =
      [{ source := "a", target := "b", kind := LinkKind.directed }] ∧
    (stepEv ⟨[], [], InteractionMode.link, LinkKind.directed, some "a"⟩
        (Event.nodeClick "b")).linkingSourceId = none := by
  have h := c1_link_creation.1
    ⟨[], [], InteractionMode.link, LinkKind.directed, some "a"⟩ "a" "b" rfl rfl (by decide)
  simpa using h

/-- C7 counterexample: on the CSV input `"A,B\n1"` with no hidden
columns, the visible header has two columns but the only body row keeps
a single cell — its Markdown line is `| 1 |` and the preview row gets
one `<td>` — so the missing position is omitted, not rendered as an
empty cell.  The claim's padding property fails at this input. -/
theorem c7_counterexample :
    (getVisibleData "A,B\n1" []).1 = ["A", "B"] ∧
    (getVisibleData "A,B\n1" []).2 = [["1"]] ∧
    "| " ++ String.intercalate " | " ["1"] ++ " |" = "| 1 |" ∧
    ¬ (∀ row ∈ (getVisibleData "A,B\n1" []).2,
        row.length = (getVisibleData "A,B\n1" []).1.length) := by
  refine ⟨by decide, by decide, by decide, ?_⟩
  intro hall
  have h1 := hall ["1"] (by decide)
  revert h1
  decide

/-- C7 (amended): the table pipeline is total best-effort — each body
row is rendered with exactly the cells present in that row, in row
order (a row shorter than the header yields fewer cells; missing
positions are omitted rather than padded), both in the Markdown export
and in the preview body, and no input raises an error; hiding column
`"A"` of `"A,B\n1,2"` yields header `["B"]` and body `[["2"]]`. -/
theorem c7_amended (dataText : String) (hidden : List String) (title note : String) :
    markdownTableText title note (getVisibleData dataText hidden).1
        (getVisibleData dataText hidden).2 =
      "**" ++ replaceFirst title "\n" "**  \n*" ++ "*\n\n" ++
        "| " ++ String.intercalate " | " (getVisibleData dataText hidden).1 ++ " |\n" ++
        "| " ++ String.intercalate " | "
            ((getVisibleData dataText hidden).1.map (fun _ => "---")) ++ " |\n" ++
        String.join ((getVisibleData dataText hidden).2.map
          (fun row => "| " ++ String.intercalate " | " row ++ " |\n")) ++
        "\n*" ++ note ++ "*" ∧
    tbodyCellMatrix (getVisibleData dataText hidden).2 = (getVisibleData dataText hidden).2 ∧
    getVisibleData "A,B\n1,2" ["A"] = (["B"], [["2"]]) := by
  refine ⟨?_, ?_, by decide⟩
  · simp only [markdownTableText]
    rw [foldl_append_eq_join]
  · unfold tbodyCellMatrix
    simp

/-- Witness for C7's amended statement at a concrete short-row input. -/
theorem c7_amended_witness :
    markdownTableText "T" "N" (getVisibleData "A,B\n1" []).1 (getVisibleData "A,B\n1" []).2 =
      "**T*\n\n| A | B |\n| --- | --- |\n| 1 |\n\n*N*" := by
  have h := (c7_amended "A,B\n1" [] "T" "N").1
  rw [h]
  decide
